import Mathlib


/-!
Verification of the Mombasa auction ingestion engine
(`process_mombasa_data.py`): column alias resolution, mark coalescing,
header-row detection, date and metadata extraction, row filtering, and the
UPSERT enrichment merge into the relational store.  All definitions are
shallow embeddings of the Python source; machine-level details (pandas
frames, sqlite connections) are modelled as lists and pure state passing.
-/

namespace TeaTrade


/-! ## Basic string utilities (Python `str.strip`, `str.lower`, `str.upper`) -/

/-- Whitespace recognised by Python `str.strip`. -/
def isWsp (c : Char) : Bool :=
  c = ' ' || c = '\t' || c = '\n' || c = '\r'

/-- Trim leading and trailing whitespace from a character list. -/
def trimChars (l : List Char) : List Char :=
  ((l.dropWhile isWsp).reverse.dropWhile isWsp).reverse

/-- `str(x).strip().lower()`. -/
def lowNorm (s : String) : String :=
  String.mk ((trimChars s.toList).map Char.toLower)

/-- `str(x).strip().upper()`. -/
def upNorm (s : String) : String :=
  String.mk ((trimChars s.toList).map Char.toUpper)

/-- Python `or`-style default for optional strings: `None` and `""` are
falsy and replaced by the default. -/
def pyOr (o : Option String) (d : String) : String :=
  match o with
  | none => d
  | some s => if s = "" then d else s

/-- SQL `COALESCE(a, b)` / pandas `fillna` on two optionals. -/
def oE {α : Type} (a b : Option α) : Option α :=
  match a with
  | some v => some v
  | none => b

/-! ## Text cleaning and the mark COALESCE strategy (lines 411-429) -/

/-- The closed noise-token set `{NAN, NONE, "", "-", NIL}` from
`load_lot_details`. -/
def noiseValues : List String := ["NAN", "NONE", "", "-", "NIL"]

/-- Cleaning applied to every mark-candidate (and text identifier) column:
`astype(str).str.strip().str.upper()` followed by mapping the noise tokens
to null.  A missing pandas cell stringifies to `"nan"`, which normalises to
the noise token `"NAN"`. -/
def cleanCell (c : Option String) : Option String :=
  let s := upNorm (match c with | none => "nan" | some t => t)
  if s ∈ noiseValues then none else some s

/-- The pandas-level COALESCE for `mark`: clean every candidate column,
start from the highest-priority column and `fillna` with each next one
(lines 420-429).  Candidates arrive already sorted by priority rank. -/
def coalesceMark (cols : List (Option String)) : Option String :=
  match cols.map cleanCell with
  | [] => none
  | c :: rest => rest.foldl oE c

/-- Specification-side reading of the same step: the first non-null
cleaned value among the candidates in priority order. -/
def firstCleanMark (cols : List (Option String)) : Option String :=
  cols.findSome? cleanCell

/-! ## Alias tables (module-level configuration, lines 37-63) -/

/-- `MARK_ALIASES`: the prioritized list for Mark (Garden). -/
def MARK_ALIASES : List String :=
  ["Selling Mark", "Garden", "Mark", "Estate", "Factory", "Selling Mark - MF Mark"]

/-- `COLUMN_MAP_LOT_DETAILS`: canonical field to ordered alias list. -/
def COLUMN_MAP_LOT_DETAILS : List (String × List String) :=
  [("broker", ["Broker"]),
   ("mark", MARK_ALIASES),
   ("grade", ["Grade"]),
   ("lot_number", ["LotNo", "Lot No", "Lot", "Lot.No"]),
   ("invoice_number", ["Invoice", "Inv.No", "Invoice No"]),
   ("quantity_kgs", ["Net Weight", "Kilos", "Kgs", "Quantity (Kg)", "Total Weight"]),
   ("package_count", ["Bags", "Pkgs"]),
   ("price", ["Purchased Price", "Final Price", "Price", "Price (USD)", "Price (USc)"]),
   ("valuation_or_rp", ["Valuation", "Asking Price", "RP"]),
   ("buyer", ["Buyer", "Buyer Name", "Final Buyer"]),
   ("sale_date_internal", ["Selling End Time", "Sale Date"]),
   ("sale_number_internal", ["Sale Code", "Auction"])]

/-- `HEADER_KEYWORDS` used by the dynamic header locator. -/
def HEADER_KEYWORDS : List String :=
  ["LotNo", "Garden", "Grade", "Invoice", "Pkgs", "Kilos", "RP", "Valuation"]

/-! ## Python-dict association lists -/

/-- Dict update `m[k] = v`: overwrite in place, else append (Python dicts
keep insertion order and update existing keys in place). -/
def setKV {β : Type} : List (String × β) → String → β → List (String × β)
  | [], k, v => [(k, v)]
  | (k', v') :: rest, k, v =>
    if k' = k then (k, v) :: rest else (k', v') :: setKV rest k v

/-- Dict lookup. -/
def getKV {β : Type} : List (String × β) → String → Option β
  | [], _ => none
  | (k', v') :: rest, k => if k' = k then some v' else getKV rest k

/-- `del mapping[next(k for k, v in mapping.items() if v == db_col)]`:
remove the first entry holding a given value (lines 186-187). -/
def delFirstVal : List (String × String) → String → List (String × String)
  | [], _ => []
  | (k', v') :: rest, v =>
    if v' = v then rest else (k', v') :: delFirstVal rest v

/-! ## `map_columns` (lines 160-195) -/

/-- The columns receiving priority tie-breaking (line 181). -/
def prioritizedCols : List String :=
  ["price", "quantity_kgs", "package_count", "valuation_or_rp",
   "sale_date_internal", "sale_number_internal"]

/-- State threaded through the alias scan: the standard header-to-field
mapping, the per-field best priority, and the mark columns with ranks. -/
structure MCState where
  mapping : List (String × String)
  priorities : List (String × Nat)
  marks : List (String × Nat)
deriving DecidableEq

/-- `normalized_df_cols`: normalized header to original header (line 163);
a dict comprehension, so later duplicates overwrite earlier ones. -/
def normDfCols (dfColumns : List String) : List (String × String) :=
  dfColumns.foldl (fun m c => setKV m (lowNorm c) c) []

/-- One iteration of the inner alias loop of `map_columns` for the triple
(canonical field, priority index, alias). -/
def mcStep (ndc : List (String × String)) (st : MCState)
    (t : String × Nat × String) : MCState :=
  match getKV ndc (lowNorm t.2.2) with
  | none => st
  | some orig =>
    if t.1 = "mark" then
      { st with marks := setKV st.marks orig t.2.1 }
    else if t.1 ∈ prioritizedCols then
      if (getKV st.priorities t.1).all (fun p => t.2.1 < p) then
        let m1 := if t.1 ∈ st.mapping.map Prod.snd
                  then delFirstVal st.mapping t.1 else st.mapping
        { st with mapping := setKV m1 orig t.1,
                  priorities := setKV st.priorities t.1 t.2.1 }
      else st
    else if t.1 ∈ st.mapping.map Prod.snd then st
    else { st with mapping := setKV st.mapping orig t.1 }

/-- The full nested loop flattened in iteration order: fields in table
order, aliases in priority order. -/
def mcTriples (mappingDict : List (String × List String)) :
    List (String × Nat × String) :=
  mappingDict.flatMap (fun p => p.2.enum.map (fun ia => (p.1, ia.1, ia.2)))

/-- `map_columns(df_columns, mapping_dict)`: returns the standard raw
header to canonical field mapping, plus the mark columns tagged with their
priority ranks. -/
def map_columns (dfColumns : List String)
    (mappingDict : List (String × List String)) :
    List (String × String) × List (String × Nat) :=
  let st := (mcTriples mappingDict).foldl
      (mcStep (normDfCols dfColumns)) ⟨[], [], []⟩
  (st.mapping, st.marks)

/-! ## `find_header_row` (lines 197-210)

A sheet preview is a list of rows of optional cells (`pd.notna` filters
the null cells). -/

/-- The normalized values of one row's non-null cells
(`str(cell).strip().lower()`). -/
def rowVals (row : List (Option String)) : List String :=
  (row.filterMap id).map lowNorm

/-- Size of the intersection between the normalized keyword set and a
row's normalized cell values. `nk` is the already-normalized, deduplicated
keyword set. -/
def rowMatchCount (nk : List String) (row : List (Option String)) : Nat :=
  (nk.filter (fun k => (rowVals row).contains k)).length

/-- A row qualifies as the header when the intersection reaches
`min(3, len(keywords))` (line 206). `kwLen` is the raw keyword count. -/
def rowQualifies (nk : List String) (kwLen : Nat)
    (row : List (Option String)) : Bool :=
  min 3 kwLen ≤ rowMatchCount nk row

/-- Top-down scan returning the zero-based index of the first qualifying
row (the `iterrows` index, since the preview is read with `header=None`). -/
def hdrScan (nk : List String) (kwLen : Nat) :
    List (List (Option String)) → Option Nat
  | [] => none
  | row :: rest =>
    if rowQualifies nk kwLen row then some 0
    else (hdrScan nk kwLen rest).map (· + 1)

/-- `find_header_row`: scan the first 20 preview rows (`nrows=20`) for the
first row whose normalized cells share at least `min(3, len(keywords))`
elements with the normalized keyword set; `None` when no row qualifies. -/
def find_header_row (rows : List (List (Option String)))
    (keywords : List String) : Option Nat :=
  hdrScan ((keywords.map lowNorm).dedup) keywords.length (rows.take 20)

/-! ## Date parsing (`parse_date`, lines 214-239)

`datetime.strptime` is embedded faithfully for the six formats used by the
code.  CPython's `_strptime` compiles each directive to a regex fragment
(`%d` = `3[01]|[12]\d|0[1-9]|[1-9]`, `%m` = `1[0-2]|0[1-9]|[1-9]`,
`%H` = `2[0-3]|[0-1]\d|\d`, `%M`/`%S` = `[0-5]\d|\d`, `%Y` = `\d{4}`,
`%y` = `\d\d`), requires the whole string to be consumed, and then
constructs a `datetime`, which separately validates the calendar date.
The alternative lists below enumerate regex matches in backtracking
order; the head of the list is the match the regex engine returns. -/

/-- Numeric value of a digit character. -/
def digVal (c : Char) : Nat := c.toNat - 48

/-- Exactly two digits. -/
def twoDigits (cs : List Char) : Option (Nat × List Char) :=
  match cs with
  | c1 :: c2 :: r =>
    if c1.isDigit && c2.isDigit then some (digVal c1 * 10 + digVal c2, r) else none
  | _ => none

/-- Exactly one digit. -/
def oneDigit (cs : List Char) : Option (Nat × List Char) :=
  match cs with
  | c :: r => if c.isDigit then some (digVal c, r) else none
  | _ => none

/-- Exactly four digits (`%Y`). -/
def fourDigits (cs : List Char) : Option (Nat × List Char) :=
  match twoDigits cs with
  | some (hi, r1) =>
    (twoDigits r1).map (fun lo => (hi * 100 + lo.1, lo.2))
  | none => none

/-- Two-or-one digit token: alternatives in regex order, two-digit branch
first, each guarded by its value predicate. -/
def tok21 (g2 g1 : Nat → Bool) (cs : List Char) : List (Nat × List Char) :=
  (match twoDigits cs with
   | some (v, r) => if g2 v then [(v, r)] else []
   | none => []) ++
  (match oneDigit cs with
   | some (v, r) => if g1 v then [(v, r)] else []
   | none => [])

/-- `%d`: `3[01]|[12]\d|0[1-9]|[1-9]`. -/
def dayTok : List Char → List (Nat × List Char) :=
  tok21 (fun v => 1 ≤ v && v ≤ 31) (fun v => 1 ≤ v)

/-- `%m`: `1[0-2]|0[1-9]|[1-9]`. -/
def monTok : List Char → List (Nat × List Char) :=
  tok21 (fun v => 1 ≤ v && v ≤ 12) (fun v => 1 ≤ v)

/-- `%H`: `2[0-3]|[0-1]\d|\d`. -/
def hourTok : List Char → List (Nat × List Char) :=
  tok21 (fun v => v ≤ 23) (fun _ => true)

/-- `%M` / `%S`: `[0-5]\d|\d`. -/
def msTok : List Char → List (Nat × List Char) :=
  tok21 (fun v => v ≤ 59) (fun _ => true)

/-- Literal separator. -/
def litTok (c : Char) (cs : List Char) : List (List Char) :=
  match cs with
  | c' :: r => if c' = c then [r] else []
  | [] => []

/-- End of input (strptime rejects trailing characters). -/
def endTok (cs : List Char) : List Unit :=
  if cs.isEmpty then [()] else []

/-- `%H:%M:%S` tail. -/
def timeTail (cs : List Char) : List Unit :=
  (hourTok cs).flatMap (fun h =>
    (litTok ':' h.2).flatMap (fun r1 =>
      (msTok r1).flatMap (fun m =>
        (litTok ':' m.2).flatMap (fun r2 =>
          (msTok r2).flatMap (fun s => endTok s.2)))))

/-- `%d/%m/%Y` (optionally followed by `' ' %H:%M:%S`), yielding
(year, month, day) matches in regex order. -/
def dmyMatches (withTime : Bool) (cs : List Char) : List (Nat × Nat × Nat) :=
  (dayTok cs).flatMap (fun d =>
    (litTok '/' d.2).flatMap (fun r1 =>
      (monTok r1).flatMap (fun m =>
        (litTok '/' m.2).flatMap (fun r2 =>
          match fourDigits r2 with
          | none => []
          | some (y, r3) =>
            if withTime then
              (litTok ' ' r3).flatMap (fun r4 =>
                (timeTail r4).map (fun _ => (y, m.1, d.1)))
            else
              (endTok r3).map (fun _ => (y, m.1, d.1))))))

/-- `%m/%d/%Y` (optionally with time), yielding (year, month, day). -/
def mdyMatches (withTime : Bool) (cs : List Char) : List (Nat × Nat × Nat) :=
  (monTok cs).flatMap (fun m =>
    (litTok '/' m.2).flatMap (fun r1 =>
      (dayTok r1).flatMap (fun d =>
        (litTok '/' d.2).flatMap (fun r2 =>
          match fourDigits r2 with
          | none => []
          | some (y, r3) =>
            if withTime then
              (litTok ' ' r3).flatMap (fun r4 =>
                (timeTail r4).map (fun _ => (y, m.1, d.1)))
            else
              (endTok r3).map (fun _ => (y, m.1, d.1))))))

/-- `%Y<sep>%m<sep>%d`, yielding (year, month, day). -/
def ymdMatches (sep : Char) (cs : List Char) : List (Nat × Nat × Nat) :=
  match fourDigits cs with
  | none => []
  | some (y, r1) =>
    (litTok sep r1).flatMap (fun r2 =>
      (monTok r2).flatMap (fun m =>
        (litTok sep m.2).flatMap (fun r3 =>
          (dayTok r3).flatMap (fun d =>
            (endTok d.2).map (fun _ => (y, m.1, d.1))))))

/-- Gregorian leap year (as validated by `datetime`). -/
def isLeap (y : Nat) : Bool :=
  (y % 4 = 0 && y % 100 ≠ 0) || y % 400 = 0

/-- Days in a month. -/
def daysInMonth (y m : Nat) : Nat :=
  if m = 2 then (if isLeap y then 29 else 28)
  else if m = 4 || m = 6 || m = 9 || m = 11 then 30
  else 31

/-- `datetime(y, m, d)` succeeds. -/
def validDate (y m d : Nat) : Bool :=
  1 ≤ y && y ≤ 9999 && 1 ≤ m && m ≤ 12 && 1 ≤ d && d ≤ daysInMonth y m

/-- One `strptime` attempt: take the regex engine's match (head of the
enumeration) and validate it as a calendar date; an invalid date raises
`ValueError`, which the caller's loop treats as "try the next format". -/
def strpAttempt (ms : List (Nat × Nat × Nat)) : Option (Nat × Nat × Nat) :=
  match ms.head? with
  | some (y, m, d) => if validDate y m d then some (y, m, d) else none
  | none => none

/-- Zero-padded rendering (`strftime("%Y-%m-%d")`). -/
def pad2 (n : Nat) : String :=
  if n < 10 then "0" ++ toString n else toString n

/-- Four-digit zero padding for the year. -/
def pad4 (n : Nat) : String :=
  if n < 10 then "000" ++ toString n
  else if n < 100 then "00" ++ toString n
  else if n < 1000 then "0" ++ toString n
  else toString n

/-- `date.strftime("%Y-%m-%d")`. -/
def fmtDate (y m d : Nat) : String :=
  pad4 y ++ "-" ++ pad2 m ++ "-" ++ pad2 d

/-- Strip a trailing millisecond fragment: `re.sub(r'[:.]\d{3}$', '', s)`. -/
def stripMs (cs : List Char) : List Char :=
  match cs.reverse with
  | d1 :: d2 :: d3 :: p :: rest =>
    if d1.isDigit && d2.isDigit && d3.isDigit && (p = ':' || p = '.') then
      rest.reverse
    else cs
  | _ => cs

/-- The format loop of `parse_date` (lines 230-238), first success wins:
`%d/%m/%Y %H:%M:%S`, `%d/%m/%Y`, `%Y-%m-%d`, `%Y/%m/%d`,
`%m/%d/%Y %H:%M:%S`, `%m/%d/%Y`. -/
def tryFormats (cs : List Char) : Option (Nat × Nat × Nat) :=
  oE (strpAttempt (dmyMatches true cs))
    (oE (strpAttempt (dmyMatches false cs))
      (oE (strpAttempt (ymdMatches '-' cs))
        (oE (strpAttempt (ymdMatches '/' cs))
          (oE (strpAttempt (mdyMatches true cs))
            (strpAttempt (mdyMatches false cs))))))

/-- CPython `%y` pivot: two-digit years 0-68 map to 2000-2068 and 69-99 to
1969-1999. -/
def yyExpand (y2 : Nat) : Nat :=
  if y2 ≤ 68 then 2000 + y2 else 1900 + y2

/-- The `^\d{6}$` branch of `parse_date`: `strptime(s, "%d%m%y")` followed
by an optional `date_obj.replace(year=int(year_hint))`.  Exactly six
digits force the 2+2+2 split of the directives, so the day must be a
two-digit 01-31 and the month a two-digit 01-12; `replace` re-validates
the calendar date against the hint year and raises (falling through to
the general formats) if the result is invalid. -/
def sixDigitDate (cs : List Char) (yearHint : Option String) : Option String :=
  match cs with
  | [c1, c2, c3, c4, c5, c6] =>
    let d := digVal c1 * 10 + digVal c2
    let m := digVal c3 * 10 + digVal c4
    let y := yyExpand (digVal c5 * 10 + digVal c6)
    if 1 ≤ d && d ≤ 31 && 1 ≤ m && m ≤ 12 && validDate y m d then
      match yearHint with
      | some h =>
        if h ≠ "" then
          if h.toList.all Char.isDigit then
            let y2 := h.toList.foldl (fun a c => a * 10 + digVal c) 0
            if validDate y2 m d then some (fmtDate y2 m d) else none
          else none
        else some (fmtDate y m d)
      | none => some (fmtDate y m d)
    else none
  | _ => none

/-- `parse_date(date_str, year_hint)`: `None` for a missing value;
otherwise strip, try the `^\d{6}$` `DDMMYY` branch (with the year hint
replacing the two-digit year), then strip a millisecond fragment and try
the six formats in order.  Unparseable input yields `None`.  (Values
arriving as `datetime` objects rather than strings are outside this
embedding; the cells are modelled as strings.) -/
def parse_date (dateStr : Option String) (yearHint : Option String := none) :
    Option String :=
  match dateStr with
  | none => none
  | some s0 =>
    let cs := trimChars s0.toList
    let sixAttempt :=
      if cs.length = 6 && cs.all Char.isDigit then
        sixDigitDate cs yearHint
      else none
    match sixAttempt with
    | some r => some r
    | none =>
      match tryFormats (stripMs cs) with
      | some (y, m, d) => some (fmtDate y m d)
      | none => none

/-! ## `extract_sale_number_from_string` (lines 241-258) -/

/-- Substring test (`'Sale' in sn_str`). -/
def hasSub (needle : List Char) : List Char → Bool
  | [] => needle.isEmpty
  | c :: t => needle.isPrefixOf (c :: t) || hasSub needle t

/-- Leading digit run. -/
def digitRun (cs : List Char) : List Char × List Char :=
  (cs.takeWhile Char.isDigit, cs.dropWhile Char.isDigit)

/-- Value of a digit string (`int`). -/
def natOfDigits (cs : List Char) : Nat :=
  cs.foldl (fun a c => a * 10 + digVal c) 0

/-- `re.search(r"Sale (\d+)", s)`: scan for the first position where
`"Sale "` is followed by at least one digit and take the maximal digit
run there. -/
def findSaleNum : List Char → Option Nat
  | [] => none
  | c :: t =>
    if ("Sale ".toList).isPrefixOf (c :: t) then
      match digitRun ((c :: t).drop 5) with
      | ([], _) => findSaleNum t
      | (ds, _) => some (natOfDigits ds)
    else findSaleNum t

/-- `re.match(r'\d{4}/\d{1,2}', s)`: the string starts with four digits,
a slash and at least one digit (the `{1,2}` upper bound constrains
nothing further since only a prefix match is required). -/
def startsYearSlashWeek (cs : List Char) : Bool :=
  match cs with
  | c1 :: c2 :: c3 :: c4 :: s :: c5 :: _ =>
    c1.isDigit && c2.isDigit && c3.isDigit && c4.isDigit && s = '/' && c5.isDigit
  | _ => false

/-- `s.replace('/', '-')` (single-character pattern). -/
def slashToDash (s : String) : String :=
  String.mk (s.toList.map (fun c => if c = '/' then '-' else c))

/-- `strptime(hint, "%Y-%m-%d")` succeeds. -/
def validYMDHint (h : String) : Bool :=
  (strpAttempt (ymdMatches '-' h.toList)).isSome

/-- The `sale_prefix` computation (lines 250-256): a truthy string hint
containing a dash that parses as `%Y-%m-%d` contributes its first
dash-separated component; anything else leaves `"UnknownYear"`. -/
def salePre (hint : Option String) : String :=
  match hint with
  | some h =>
    if h ≠ "" && h.toList.contains '-' && validYMDHint h then
      (h.splitOn "-").headD ""
    else "UnknownYear"
  | none => "UnknownYear"

/-- `extract_sale_number_from_string(sn_str, sale_date_hint)`. -/
def extract_sale_number_from_string (sn : Option String)
    (saleDateHint : Option String := none) : String :=
  match sn with
  | none => "Unknown"
  | some s =>
    if s = "" then "Unknown"
    else if s.toList.contains '/' && startsYearSlashWeek s.toList then
      slashToDash s
    else if hasSub "Sale".toList s.toList then
      match findSaleNum s.toList with
      | some n => salePre saleDateHint ++ "-" ++ pad2 n
      | none => "Unknown"
    else "Unknown"

/-- The shape the analytics layer expects: `"YYYY-NN"` — four digits,
a dash, two digits. -/
def isCanonicalSaleNumber (s : String) : Bool :=
  match s.toList with
  | [y1, y2, y3, y4, d, n1, n2] =>
    y1.isDigit && y2.isDigit && y3.isDigit && y4.isDigit &&
      d = '-' && n1.isDigit && n2.isDigit
  | _ => false

/-! ## `extract_metadata` (lines 260-295)

A sheet is modelled as ordered columns of optional string cells. -/

/-- A data frame: ordered (header, cells) columns. -/
def Frame : Type := List (String × List (Option String))

/-- Case-insensitive prefix test used for the `re.IGNORECASE` filename
patterns (the payload groups are digits, unaffected by case folding). -/
def ciPrefix (pat : List Char) (cs : List Char) : Bool :=
  pat.isPrefixOf (cs.map Char.toLower)

/-- Take exactly `n` digits. -/
def takeDigits (n : Nat) (cs : List Char) : Option (List Char × List Char) :=
  let pre := cs.take n
  if pre.length = n && pre.all Char.isDigit then some (pre, cs.drop n) else none

/-- Pattern 1 (line 264):
`(?:AuctionSummary_|CompleteOfferLots_)\[?(\d{4})-(\d{2})\]?_(\d{6})\.xlsx`
with `re.match` anchoring at the start; returns the year, week, and
six-digit date groups. -/
def matchPattern1 (filename : String) : Option (String × String × String) :=
  let cs := filename.toList
  let afterTag :=
    if ciPrefix "auctionsummary_".toList cs then some (cs.drop 15)
    else if ciPrefix "completeofferlots_".toList cs then some (cs.drop 18)
    else none
  match afterTag with
  | none => none
  | some r0 =>
    let r1 := match r0 with
      | '[' :: rest => rest
      | _ => r0
    match takeDigits 4 r1 with
    | none => none
    | some (yr, r2) =>
      match r2 with
      | '-' :: r3 =>
        match takeDigits 2 r3 with
        | none => none
        | some (wk, r4) =>
          let r5 := match r4 with
            | ']' :: rest => rest
            | _ => r4
          match r5 with
          | '_' :: r6 =>
            match takeDigits 6 r6 with
            | none => none
            | some (d6, r7) =>
              if ciPrefix ".xlsx".toList r7 then
                some (String.mk yr, String.mk wk, String.mk d6)
              else none
          | _ => none
      | _ => none

/-- One attempt of pattern 2 at a fixed position:
`Sale (\d+)_Catalogue_(\d{2})_(\d{2})_(\d{4})` (case-insensitive). -/
def matchPattern2At (cs : List Char) :
    Option (Nat × String × String × String) :=
  if ciPrefix "sale ".toList cs then
    match digitRun (cs.drop 5) with
    | ([], _) => none
    | (ds, r1) =>
      if ciPrefix "_catalogue_".toList r1 then
        match takeDigits 2 (r1.drop 11) with
        | none => none
        | some (dd, r2) =>
          match r2 with
          | '_' :: r3 =>
            match takeDigits 2 r3 with
            | none => none
            | some (mm, r4) =>
              match r4 with
              | '_' :: r5 =>
                match takeDigits 4 r5 with
                | none => none
                | some (yy, _) =>
                  some (natOfDigits ds, String.mk dd, String.mk mm, String.mk yy)
              | _ => none
          | _ => none
      else none
  else none

/-- `re.search` scan for pattern 2. -/
def matchPattern2 : List Char → Option (Nat × String × String × String)
  | [] => none
  | c :: t =>
    match matchPattern2At (c :: t) with
    | some r => some r
    | none => matchPattern2 t

/-- `df.rename(columns=mapping)` on one header: replace it when the
mapping has an entry for it, else keep it. -/
def renameHdr (mapping : List (String × String)) (h : String) : String :=
  match mapping.find? (fun p => p.1 = h) with
  | some p => p.2
  | none => h

/-- First non-null value of the renamed column
(`df_mapped[field].dropna().iloc[0]`). -/
def firstColValue (df : Frame) (mapping : List (String × String))
    (field : String) : Option String :=
  match (df.find? (fun col => renameHdr mapping col.1 = field)).map Prod.snd with
  | none => none
  | some cells => cells.findSome? id

/-- `field in df_mapped.columns` after the rename. -/
def hasMappedCol (df : Frame) (mapping : List (String × String))
    (field : String) : Bool :=
  (df.map (fun col => renameHdr mapping col.1)).contains field

/-- The body of `extract_metadata` before the final `or "Unknown"`
defaults: filename pattern 1, then filename pattern 2 (only when no sale
number yet), then — when a frame is supplied and a field is still
missing — the internal `sale_date_internal` / `sale_number_internal`
columns. -/
def extractMetaCore (filename : String) (df : Option Frame) :
    Option String × Option String :=
  let p1 := matchPattern1 filename
  let sn0 : Option String := p1.map (fun g => g.1 ++ "-" ++ g.2.1)
  let sd0 : Option String := match p1 with
    | some g => parse_date (some g.2.2) (some g.1)
    | none => none
  let p2 := if sn0.isNone then matchPattern2 filename.toList else none
  let sn1 : Option String := match p2 with
    | some g => some (g.2.2.2 ++ "-" ++ pad2 g.1)
    | none => sn0
  let sd1 : Option String := match p2 with
    | some g => parse_date (some (g.2.1 ++ "/" ++ g.2.2.1 ++ "/" ++ g.2.2.2))
    | none => sd0
  let res : Option String × Option String := match df with
    | none => (sn1, sd1)
    | some frame =>
      if sn1.isNone || sd1.isNone then
        let mp := (map_columns (frame.map Prod.fst) COLUMN_MAP_LOT_DETAILS).1
        let sd2 :=
          if sd1.isNone && hasMappedCol frame mp "sale_date_internal" then
            match firstColValue frame mp "sale_date_internal" with
            | some v => if v ≠ "" then parse_date (some v) else none
            | none => none
          else sd1
        let sn2 :=
          if sn1.isNone && hasMappedCol frame mp "sale_number_internal" then
            match firstColValue frame mp "sale_number_internal" with
            | some v =>
              if v ≠ "" then some (extract_sale_number_from_string (some v) sd2)
              else none
            | none => none
          else sn1
        (sn2, sd2)
      else (sn1, sd1)
  res

/-- `extract_metadata(filename, df)` (lines 260-295): run the fallback
chain and return `(sale_number or "Unknown", sale_date or "Unknown")`. -/
def extract_metadata (filename : String) (df : Option Frame := none) :
    String × String :=
  (pyOr (extractMetaCore filename df).1 "Unknown",
    pyOr (extractMetaCore filename df).2 "Unknown")

/-! ## Data model: canonical rows for the two tabular tables

Numeric `REAL` columns are modelled with `ℚ`, the `INTEGER` column with
`ℤ`; nullable columns are `Option`s, `NOT NULL` columns are plain. -/

/-- Row of `auction_offers` (schema lines 92-99); the surrogate `id` is
omitted — identity is the natural key. -/
structure OfferRow where
  source_location : String
  sale_date : Option String
  sale_number : Option String
  broker : Option String
  mark : Option String
  grade : Option String
  lot_number : Option String
  invoice_number : Option String
  quantity_kgs : Option ℚ
  package_count : Option ℤ
  valuation_or_rp : Option ℚ
  source_file_identifier : String
  processed_timestamp : String
deriving DecidableEq

/-- Row of `auction_sales` (schema lines 82-90). -/
structure SaleRow where
  source_location : String
  sale_date : Option String
  sale_number : Option String
  broker : Option String
  mark : Option String
  grade : Option String
  lot_number : Option String
  invoice_number : Option String
  quantity_kgs : Option ℚ
  package_count : Option ℤ
  price : Option ℚ
  buyer : Option String
  source_file_identifier : String
  processed_timestamp : String
deriving DecidableEq

/-! ## The UPSERT conflict target

`UNIQUE(source_location, sale_number, lot_number, broker)`; SQLite treats
`NULL` key components as distinct, so a conflict requires all nullable
key parts of the incoming row to be non-null and equal to the stored
row's. -/

/-- Does inserting `r` conflict with stored row `s` in `auction_offers`? -/
def offerConflict (s r : OfferRow) : Bool :=
  s.source_location == r.source_location && s.sale_number == r.sale_number &&
    s.lot_number == r.lot_number && s.broker == r.broker &&
    r.sale_number.isSome && r.lot_number.isSome && r.broker.isSome

/-- Does inserting `r` conflict with stored row `s` in `auction_sales`? -/
def saleConflict (s r : SaleRow) : Bool :=
  s.source_location == r.source_location && s.sale_number == r.sale_number &&
    s.lot_number == r.lot_number && s.broker == r.broker &&
    r.sale_number.isSome && r.lot_number.isSome && r.broker.isSome

/-! ## Merge policies (`execute_insert`, lines 316-364) -/

/-- `auction_offers` `ON CONFLICT DO UPDATE` (lines 318-349): every
enrichable column `c` becomes `COALESCE(excluded.c, c)` — the incoming
value only when it is non-null — and the provenance columns are always
overwritten with the incoming (`excluded`) values.  The key columns
`source_location`, `sale_number`, `lot_number` are not in the update
list. -/
def mergeOffer (s r : OfferRow) : OfferRow :=
  { s with
    valuation_or_rp := oE r.valuation_or_rp s.valuation_or_rp
    mark := oE r.mark s.mark
    quantity_kgs := oE r.quantity_kgs s.quantity_kgs
    package_count := oE r.package_count s.package_count
    invoice_number := oE r.invoice_number s.invoice_number
    grade := oE r.grade s.grade
    sale_date := oE r.sale_date s.sale_date
    broker := oE r.broker s.broker
    source_file_identifier := r.source_file_identifier
    processed_timestamp := r.processed_timestamp }

/-- `auction_sales` `ON CONFLICT DO UPDATE` (lines 351-364): every column
of the inserted frame becomes `excluded.c` — the stored row is fully
overwritten by the incoming one, column by column. -/
def mergeSale (s r : SaleRow) : SaleRow :=
  { s with
    source_location := r.source_location
    sale_date := r.sale_date
    sale_number := r.sale_number
    broker := r.broker
    mark := r.mark
    grade := r.grade
    lot_number := r.lot_number
    invoice_number := r.invoice_number
    quantity_kgs := r.quantity_kgs
    package_count := r.package_count
    price := r.price
    buyer := r.buyer
    source_file_identifier := r.source_file_identifier
    processed_timestamp := r.processed_timestamp }

/-! ## Generic single-row UPSERT and batch ingestion -/

/-- Insert one row: on conflict with the first matching stored row apply
the merge policy in place, otherwise append the row. -/
def upsertBy {α : Type} (ck : α → α → Bool) (mg : α → α → α) :
    List α → α → List α
  | [], r => [r]
  | s :: t, r => if ck s r then mg s r :: t else s :: upsertBy ck mg t r

/-- Sequential ingestion of a parsed batch (`cursor.executemany`). -/
def ingestBy {α : Type} (ck : α → α → Bool) (mg : α → α → α)
    (t : List α) (b : List α) : List α :=
  b.foldl (upsertBy ck mg) t

/-- The `auction_offers` table after inserting one batch. -/
def ingestOffers (t : List OfferRow) (b : List OfferRow) : List OfferRow :=
  ingestBy offerConflict mergeOffer t b

/-- The `auction_sales` table after inserting one batch. -/
def ingestSales (t : List SaleRow) (b : List SaleRow) : List SaleRow :=
  ingestBy saleConflict mergeSale t b

/-! ## `execute_insert` failure handling (lines 371-380)

`executemany` stops at the first constraint violation; the `except`
branch rolls the open transaction back (restoring the pre-batch store)
and returns an affected-row count of `0`. -/

/-- `NOT NULL` columns of `auction_sales` that live in `Option` fields. -/
def saleRowNotNullOk (r : SaleRow) : Bool :=
  r.lot_number.isSome && r.price.isSome && r.buyer.isSome

/-- Run the statements of one sales batch in order, failing at the first
row violating a `NOT NULL` constraint. -/
def salesBatch : List SaleRow → List SaleRow → Except String (List SaleRow × Nat)
  | t, [] => Except.ok (t, 0)
  | t, r :: rs =>
    if saleRowNotNullOk r then
      match salesBatch (upsertBy saleConflict mergeSale t r) rs with
      | Except.ok (t', n) => Except.ok (t', n + 1)
      | Except.error e => Except.error e
    else Except.error "NOT NULL constraint failed"

/-- `execute_insert(conn, 'auction_sales', df)`: on success commit and
report the affected-row count; on an `sqlite3.Error` roll back and
report `0`.  The error never propagates to the caller. -/
def execute_insert_sales (t : List SaleRow) (b : List SaleRow) :
    List SaleRow × Nat :=
  match salesBatch t b with
  | Except.ok res => res
  | Except.error _ => (t, 0)

/-- The tail of `load_lot_details` (lines 514-521): after
`execute_insert` returns, the handler logs the file with status
`'SUCCESS'` and the affected count — for a zero count it merely logs
"No changes detected".  Returns (new table, affected count, ledger
status). -/
def loadOutcomeSales (t : List SaleRow) (b : List SaleRow) :
    (List SaleRow × Nat) × String :=
  (execute_insert_sales t b, "SUCCESS")

/-! ## Row filtering in `load_lot_details` (lines 454-497) -/

/-- A canonical lot row after cleaning, before the merge; Sale-only
fields are populated only for sale rows. -/
structure LotRow where
  sale_number : Option String
  sale_date : Option String
  lot_number : Option String
  broker : Option String
  mark : Option String
  grade : Option String
  invoice_number : Option String
  quantity_kgs : Option ℚ
  package_count : Option ℤ
  valuation_or_rp : Option ℚ
  price : Option ℚ
  buyer : Option String
deriving DecidableEq

/-- Line 455: keep rows whose `sale_number`/`sale_date` are neither the
`'Unknown'` sentinel nor null. -/
def metaOk (r : LotRow) : Bool :=
  (r.sale_number != some "Unknown") && (r.sale_date != some "Unknown") &&
    r.sale_date.isSome && r.sale_number.isSome

/-- Lines 483-497: `dropna` over the required columns — lot number,
broker, mark and grade always, plus price and buyer for Sale records. -/
def requiredOk (isSale : Bool) (r : LotRow) : Bool :=
  r.lot_number.isSome && r.broker.isSome && r.mark.isSome && r.grade.isSome &&
    (!isSale || (r.price.isSome && r.buyer.isSome))

/-- The two filtering stages of `load_lot_details` in order. -/
def filterRows (isSale : Bool) (rows : List LotRow) : List LotRow :=
  (rows.filter metaOk).filter (requiredOk isSale)

/-! ## Re-ingestion behaviour of the generic UPSERT

The key facts behind the idempotence analysis: re-upserting a row whose
first conflicting stored row already absorbs it is the identity, and
ingesting other keys never disturbs that. -/

/-- First stored row conflicting with an incoming row. -/
def firstMatch {α : Type} (ck : α → α → Bool) : List α → α → Option α
  | [], _ => none
  | s :: t, r => if ck s r then some s else firstMatch ck t r

/-! ## Offer/Sale instances of the UPSERT facts -/

/-- Erase the always-overwritten provenance columns of an offer row. -/
def stripProvO (r : OfferRow) : OfferRow :=
  { r with source_file_identifier := "", processed_timestamp := "" }

/-- Erase the always-overwritten provenance columns of a sale row. -/
def stripProvS (r : SaleRow) : SaleRow :=
  { r with source_file_identifier := "", processed_timestamp := "" }

/-! ## Value uniqueness of the standard mapping (`map_columns`) -/

/-- The invariant maintained by every iteration of `map_columns`: the
standard mapping never holds a canonical field twice, and never holds
`'mark'` at all. -/
def mappingOK (m : List (String × String)) : Prop :=
  (m.map Prod.snd).Nodup ∧ "mark" ∉ m.map Prod.snd

/-! ## Concrete rows, sheets and frames used as evaluation inputs -/

/-- A stored offer: valuation known, mark still missing. -/
def owStored : OfferRow :=
  { source_location := "Mombasa", sale_date := some "2025-09-01",
    sale_number := some "2025-35", broker := some "ATB",
    mark := none, grade := some "BP1", lot_number := some "1001",
    invoice_number := none, quantity_kgs := some 1200,
    package_count := some 20, valuation_or_rp := some 300,
    source_file_identifier := "CompleteOfferLots_2025-35_010925.xlsx::ATB",
    processed_timestamp := "2025-09-02T10:00:00" }

/-- A re-delivery of the same natural key: null valuation, known mark. -/
def owIncoming : OfferRow :=
  { source_location := "Mombasa", sale_date := some "2025-09-01",
    sale_number := some "2025-35", broker := some "ATB",
    mark := some "KIAMBU", grade := some "BP1", lot_number := some "1001",
    invoice_number := some "INV9", quantity_kgs := some 1200,
    package_count := some 20, valuation_or_rp := none,
    source_file_identifier := "AuctionSummary_[2025-35]_010925.xlsx::Detail",
    processed_timestamp := "2025-09-03T09:00:00" }

/-- The offer row as parsed by the first ingestion run. -/
def owRun1 : OfferRow :=
  { owStored with processed_timestamp := "2025-09-02T10:00:00" }

/-- The identical parsed row stamped by the second ingestion run. -/
def owRun2 : OfferRow :=
  { owStored with processed_timestamp := "2025-09-05T08:30:00" }

/-- A stored sale row. -/
def slStored : SaleRow :=
  { source_location := "Mombasa", sale_date := some "2025-09-01",
    sale_number := some "2025-35", broker := some "ATB",
    mark := some "KIAMBU", grade := some "BP1", lot_number := some "1001",
    invoice_number := none, quantity_kgs := some 1200,
    package_count := some 20, price := some 250, buyer := some "GLOBAL TEA",
    source_file_identifier := "GeneralReport_w35.xlsx::General Report",
    processed_timestamp := "2025-09-02T10:00:00" }

/-- A later sale report for the same key with a different buyer and a
null invoice (fully overwriting on merge). -/
def slIncoming : SaleRow :=
  { source_location := "Mombasa", sale_date := some "2025-09-01",
    sale_number := some "2025-35", broker := some "ATB",
    mark := some "KIAMBU", grade := some "BP1", lot_number := some "1001",
    invoice_number := none, quantity_kgs := some 1180,
    package_count := some 20, price := some 262, buyer := some "CHAI TRADERS",
    source_file_identifier := "GeneralReport_w35b.xlsx::General Report",
    processed_timestamp := "2025-09-04T11:00:00" }

/-- The sale row stamped by a second run of the same report. -/
def slRun2 : SaleRow :=
  { slStored with processed_timestamp := "2025-09-05T08:30:00" }

/-- A sale row violating the `price REAL NOT NULL` constraint. -/
def slBad : SaleRow :=
  { slStored with lot_number := some "1002", price := none }

/-- An offer row whose only defect is a missing mark. -/
def lotNoMark : LotRow :=
  { sale_number := some "2025-35", sale_date := some "2025-09-01",
    lot_number := some "1001", broker := some "ATB", mark := none,
    grade := some "BP1", invoice_number := some "INV9",
    quantity_kgs := some 1200, package_count := some 20,
    valuation_or_rp := some 300, price := none, buyer := none }

/-- An offer row with a null valuation and all identity fields present. -/
def lotKeep : LotRow :=
  { sale_number := some "2025-35", sale_date := some "2025-09-01",
    lot_number := some "1001", broker := some "ATB", mark := some "KIAMBU",
    grade := some "BP1", invoice_number := none,
    quantity_kgs := some 1200, package_count := some 20,
    valuation_or_rp := none, price := none, buyer := none }

/-- A synthetic broker sheet: three junk rows, then the header. -/
def demoSheet : List (List (Option String)) :=
  [[some "Mombasa Tea Auction"],
   [],
   [some "-", none],
   [some "LotNo", some "Garden", some "Grade", some "Kilos"],
   [some "1001", some "KIAMBU", some "BP1", some "1200"]]

/-- A frame with internal metadata columns only. -/
def demoFrame : Frame :=
  [("Sale Date", [none, some "2025-09-01"]), ("Auction", [some "2025/35"])]

/-! ## The per-field enrichment contract of the Offer merge (claim C1) -/

/-- For each enrichable column: a null incoming value leaves the stored
value, a non-null incoming value replaces it; the provenance columns take
the incoming values unconditionally. -/
def offerEnrichSpec (s i : OfferRow) : Prop :=
  (i.valuation_or_rp = none → (mergeOffer s i).valuation_or_rp = s.valuation_or_rp) ∧
  (∀ v, i.valuation_or_rp = some v → (mergeOffer s i).valuation_or_rp = some v) ∧
  (i.mark = none → (mergeOffer s i).mark = s.mark) ∧
  (∀ v, i.mark = some v → (mergeOffer s i).mark = some v) ∧
  (i.quantity_kgs = none → (mergeOffer s i).quantity_kgs = s.quantity_kgs) ∧
  (∀ v, i.quantity_kgs = some v → (mergeOffer s i).quantity_kgs = some v) ∧
  (i.package_count = none → (mergeOffer s i).package_count = s.package_count) ∧
  (∀ v, i.package_count = some v → (mergeOffer s i).package_count = some v) ∧
  (i.invoice_number = none → (mergeOffer s i).invoice_number = s.invoice_number) ∧
  (∀ v, i.invoice_number = some v → (mergeOffer s i).invoice_number = some v) ∧
  (i.grade = none → (mergeOffer s i).grade = s.grade) ∧
  (∀ v, i.grade = some v → (mergeOffer s i).grade = some v) ∧
  (i.sale_date = none → (mergeOffer s i).sale_date = s.sale_date) ∧
  (∀ v, i.sale_date = some v → (mergeOffer s i).sale_date = some v) ∧
  (mergeOffer s i).source_file_identifier = i.source_file_identifier ∧
  (mergeOffer s i).processed_timestamp = i.processed_timestamp

/-! ## Proof development: general lemmas, then the claim theorems -/

@[simp] theorem oE_some {α : Type} (v : α) (b : Option α) : oE (some v) b = some v := rfl

@[simp] theorem oE_none {α : Type} (b : Option α) : oE none b = b := rfl

theorem oE_idem {α : Type} (a b : Option α) : oE a (oE a b) = oE a b := by
  cases a <;> rfl

theorem foldl_oE_some {α : Type} (l : List (Option α)) (v : α) :
    l.foldl oE (some v) = some v := by
  induction l with
  | nil => rfl
  | cons c rest ih => simpa [oE] using ih

theorem coalesceMark_eq_foldl_none (cols : List (Option String)) :
    coalesceMark cols = (cols.map cleanCell).foldl oE none := by
  unfold coalesceMark
  cases cols.map cleanCell with
  | nil => rfl
  | cons c r => rfl

theorem coalesceMark_eq_firstCleanMark (cols : List (Option String)) :
    coalesceMark cols = firstCleanMark cols := by
  induction cols with
  | nil => rfl
  | cons c rest ih =>
    rw [coalesceMark_eq_foldl_none, List.map_cons, List.foldl_cons, oE_none]
    cases h : cleanCell c with
    | some v =>
      rw [foldl_oE_some]
      simp [firstCleanMark, List.findSome?_cons, h]
    | none =>
      rw [← coalesceMark_eq_foldl_none, ih]
      simp [firstCleanMark, List.findSome?_cons, h]

theorem hdrScan_some_iff (nk : List String) (kwLen : Nat)
    (l : List (List (Option String))) (j : Nat) :
    hdrScan nk kwLen l = some j ↔
      (j < l.length ∧
        rowQualifies nk kwLen (l.getD j []) = true ∧
        ∀ m < j, rowQualifies nk kwLen (l.getD m []) = false) := by
  induction l generalizing j with
  | nil => simp [hdrScan]
  | cons row rest ih =>
    rw [hdrScan]
    by_cases hq : rowQualifies nk kwLen row = true
    · rw [if_pos hq]
      constructor
      · rintro h
        injection h with h
        subst h
        exact ⟨by simp, by simpa using hq, fun m hm => absurd hm (Nat.not_lt_zero m)⟩
      · rintro ⟨h1, h2, h3⟩
        match j with
        | 0 => rfl
        | Nat.succ j' =>
          have := h3 0 (Nat.succ_pos j')
          simp only [List.getD_cons_zero] at this
          rw [hq] at this
          cases this
    · rw [if_neg hq]
      have hqf : rowQualifies nk kwLen row = false := eq_false_of_ne_true hq
      constructor
      · intro h
        match j, h with
        | Nat.succ j', h =>
          have hrest : hdrScan nk kwLen rest = some j' := by
            cases hr : hdrScan nk kwLen rest with
            | none => rw [hr] at h; simp at h
            | some v =>
              rw [hr] at h
              simp only [Option.map] at h
              injection h with h
              have : v = j' := by omega
              rw [this]
          obtain ⟨a1, a2, a3⟩ := (ih j').mp hrest
          refine ⟨by simpa using Nat.succ_lt_succ a1, by simpa using a2, ?_⟩
          intro m hm
          match m with
          | 0 => simpa using hqf
          | Nat.succ m' => simpa using a3 m' (by omega)
        | 0, h =>
          exfalso
          cases hr : hdrScan nk kwLen rest with
          | none => rw [hr] at h; simp at h
          | some v => rw [hr] at h; simp at h
      · rintro ⟨h1, h2, h3⟩
        match j with
        | 0 =>
          simp only [List.getD_cons_zero] at h2
          rw [h2] at hqf
          cases hqf
        | Nat.succ j' =>
          have : hdrScan nk kwLen rest = some j' := by
            rw [ih j']
            refine ⟨by simpa using h1, by simpa using h2, ?_⟩
            intro m hm
            simpa using h3 (m + 1) (by omega)
          rw [this]
          rfl

theorem hdrScan_none_iff (nk : List String) (kwLen : Nat)
    (l : List (List (Option String))) :
    hdrScan nk kwLen l = none ↔
      ∀ m < l.length, rowQualifies nk kwLen (l.getD m []) = false := by
  induction l with
  | nil => simp [hdrScan]
  | cons row rest ih =>
    rw [hdrScan]
    by_cases hq : rowQualifies nk kwLen row = true
    · rw [if_pos hq]
      simp only [List.length_cons]
      constructor
      · intro h
        cases h
      · intro h
        have := h 0 (Nat.succ_pos _)
        simp only [List.getD_cons_zero] at this
        rw [hq] at this
        cases this
    · rw [if_neg hq]
      constructor
      · intro h m hm
        match m with
        | 0 => simpa using eq_false_of_ne_true hq
        | Nat.succ m' =>
          have hrest : hdrScan nk kwLen rest = none := by
            cases hr : hdrScan nk kwLen rest with
            | none => rfl
            | some v => rw [hr] at h; simp at h
          have := (ih.mp hrest) m' (by simpa using hm)
          simpa using this
      · intro h
        have hrest : hdrScan nk kwLen rest = none := by
          rw [ih]
          intro m hm
          simpa using h (m + 1) (by simpa using Nat.succ_lt_succ hm)
        rw [hrest]
        rfl

theorem upsertBy_of_firstMatch_fix {α : Type} (ck : α → α → Bool)
    (mg : α → α → α) (t : List α) (r v : α)
    (hfm : firstMatch ck t r = some v) (hfix : mg v r = v) :
    upsertBy ck mg t r = t := by
  induction t with
  | nil => cases hfm
  | cons s t2 ih =>
    rw [upsertBy]
    rw [firstMatch] at hfm
    by_cases hsr : ck s r = true
    · rw [if_pos hsr] at hfm
      injection hfm with hv
      rw [if_pos hsr, hv, hfix]
    · rw [if_neg hsr] at hfm
      rw [if_neg hsr, ih hfm]

theorem firstMatch_upsertBy_self {α : Type} (ck : α → α → Bool)
    (mg : α → α → α)
    (hmgSelf : ∀ r, ck r r = true → mg r r = r)
    (hmgIdem : ∀ s r, ck s r = true → mg (mg s r) r = mg s r)
    (hckMg : ∀ s r, ck s r = true → ck (mg s r) r = true)
    (t : List α) (r : α) (hrr : ck r r = true) :
    ∃ v, firstMatch ck (upsertBy ck mg t r) r = some v ∧ mg v r = v := by
  induction t with
  | nil =>
    refine ⟨r, ?_, hmgSelf r hrr⟩
    simp [upsertBy, firstMatch, hrr]
  | cons s t2 ih =>
    rw [upsertBy]
    by_cases hsr : ck s r = true
    · rw [if_pos hsr]
      exact ⟨mg s r, by simp [firstMatch, hckMg s r hsr], hmgIdem s r hsr⟩
    · rw [if_neg hsr]
      obtain ⟨v, h1, h2⟩ := ih
      exact ⟨v, by simp [firstMatch, hsr, h1], h2⟩

theorem firstMatch_upsertBy_other {α : Type} (ck : α → α → Bool)
    (mg : α → α → α)
    (hckStable : ∀ s q x, ck s q = true → ck (mg s q) x = ck s x)
    (hckTrans : ∀ s x q, ck s x = true → ck s q = ck x q)
    (t : List α) (r q v : α)
    (hfm : firstMatch ck t r = some v) (hrq : ck r q = false) :
    firstMatch ck (upsertBy ck mg t q) r = some v := by
  induction t with
  | nil => cases hfm
  | cons s t2 ih =>
    rw [upsertBy]
    rw [firstMatch] at hfm
    by_cases hsr : ck s r = true
    · rw [if_pos hsr] at hfm
      have hsq : ck s q = false := by rw [hckTrans s r q hsr]; exact hrq
      rw [if_neg (by rw [hsq]; exact Bool.false_ne_true)]
      rw [firstMatch, if_pos hsr]
      exact hfm
    · rw [if_neg hsr] at hfm
      by_cases hsq : ck s q = true
      · rw [if_pos hsq, firstMatch]
        rw [hckStable s q r hsq]
        rw [if_neg hsr]
        exact hfm
      · rw [if_neg hsq, firstMatch, if_neg hsr]
        exact ih hfm

theorem firstMatch_ingestBy_other {α : Type} (ck : α → α → Bool)
    (mg : α → α → α)
    (hckStable : ∀ s q x, ck s q = true → ck (mg s q) x = ck s x)
    (hckTrans : ∀ s x q, ck s x = true → ck s q = ck x q)
    (b : List α) (t : List α) (r v : α)
    (hfm : firstMatch ck t r = some v)
    (hb : ∀ q ∈ b, ck r q = false) :
    firstMatch ck (ingestBy ck mg t b) r = some v := by
  induction b generalizing t with
  | nil => exact hfm
  | cons q b2 ih =>
    have step := firstMatch_upsertBy_other ck mg hckStable hckTrans t r q v hfm
      (hb q (List.mem_cons_self q b2))
    exact ih (upsertBy ck mg t q) step (fun x hx => hb x (List.mem_cons_of_mem q hx))

/-- Exact idempotence of batch ingestion: re-running an identical batch
(whose rows each carry a complete key and pairwise-distinct keys) over
the table it produced changes nothing. -/
theorem ingestBy_idem {α : Type} (ck : α → α → Bool) (mg : α → α → α)
    (hmgSelf : ∀ r, ck r r = true → mg r r = r)
    (hmgIdem : ∀ s r, ck s r = true → mg (mg s r) r = mg s r)
    (hckMg : ∀ s r, ck s r = true → ck (mg s r) r = true)
    (hckStable : ∀ s q x, ck s q = true → ck (mg s q) x = ck s x)
    (hckTrans : ∀ s x q, ck s x = true → ck s q = ck x q)
    (b : List α) (t : List α)
    (hself : ∀ r ∈ b, ck r r = true)
    (hpair : b.Pairwise (fun a c => ck a c = false)) :
    ingestBy ck mg (ingestBy ck mg t b) b = ingestBy ck mg t b := by
  induction b generalizing t with
  | nil => rfl
  | cons r b2 ih =>
    have hrr := hself r (List.mem_cons_self r b2)
    have hself2 : ∀ x ∈ b2, ck x x = true :=
      fun x hx => hself x (List.mem_cons_of_mem r hx)
    rw [List.pairwise_cons] at hpair
    obtain ⟨hr2, hpair2⟩ := hpair
    have key : ingestBy ck mg t (r :: b2) = ingestBy ck mg (upsertBy ck mg t r) b2 := rfl
    rw [key]
    obtain ⟨v, hfm, hfix⟩ :=
      firstMatch_upsertBy_self ck mg hmgSelf hmgIdem hckMg t r hrr
    have hfmT1 := firstMatch_ingestBy_other ck mg hckStable hckTrans b2
      (upsertBy ck mg t r) r v hfm hr2
    have habsorb := upsertBy_of_firstMatch_fix ck mg
      (ingestBy ck mg (upsertBy ck mg t r) b2) r v hfmT1 hfix
    calc ingestBy ck mg (ingestBy ck mg (upsertBy ck mg t r) b2) (r :: b2)
        = ingestBy ck mg
            (upsertBy ck mg (ingestBy ck mg (upsertBy ck mg t r) b2) r) b2 := rfl
      _ = ingestBy ck mg (ingestBy ck mg (upsertBy ck mg t r) b2) b2 := by rw [habsorb]
      _ = ingestBy ck mg (upsertBy ck mg t r) b2 := ih (upsertBy ck mg t r) hself2 hpair2

/-- Congruence of the UPSERT under a projection `σ` (e.g. erasing the
provenance fields) for which conflict detection and merging are
`σ`-invariant. -/
theorem upsertBy_congr {α : Type} (ck : α → α → Bool) (mg : α → α → α)
    (σ : α → α)
    (hck : ∀ s s' r r', σ s = σ s' → σ r = σ r' → ck s r = ck s' r')
    (hmg : ∀ s s' r r', σ s = σ s' → σ r = σ r' → σ (mg s r) = σ (mg s' r'))
    (t t' : List α) (r r' : α)
    (ht : t.map σ = t'.map σ) (hr : σ r = σ r') :
    (upsertBy ck mg t r).map σ = (upsertBy ck mg t' r').map σ := by
  induction t generalizing t' with
  | nil =>
    match t' with
    | [] => simpa [upsertBy] using hr
    | s' :: t2' => simp at ht
  | cons s t2 ih =>
    match t' with
    | [] => simp at ht
    | s' :: t2' =>
      simp only [List.map_cons, List.cons.injEq] at ht
      obtain ⟨hs, ht2⟩ := ht
      rw [upsertBy, upsertBy]
      by_cases hsr : ck s r = true
      · rw [if_pos hsr, if_pos (by rw [← hck s s' r r' hs hr]; exact hsr)]
        simp only [List.map_cons, List.cons.injEq]
        exact ⟨hmg s s' r r' hs hr, ht2⟩
      · rw [if_neg hsr, if_neg (by rw [← hck s s' r r' hs hr]; exact hsr)]
        simp only [List.map_cons, List.cons.injEq]
        exact ⟨hs, ih t2' ht2⟩

theorem ingestBy_congr {α : Type} (ck : α → α → Bool) (mg : α → α → α)
    (σ : α → α)
    (hck : ∀ s s' r r', σ s = σ s' → σ r = σ r' → ck s r = ck s' r')
    (hmg : ∀ s s' r r', σ s = σ s' → σ r = σ r' → σ (mg s r) = σ (mg s' r'))
    (b b' : List α) (hb : List.Forall₂ (fun x y => σ x = σ y) b b')
    (t t' : List α) (ht : t.map σ = t'.map σ) :
    (ingestBy ck mg t b).map σ = (ingestBy ck mg t' b').map σ := by
  induction hb generalizing t t' with
  | nil => exact ht
  | cons hxy _ ih =>
    exact ih _ _ (upsertBy_congr ck mg σ hck hmg _ _ _ _ ht hxy)

theorem oE_self {α : Type} (a : Option α) : oE a a = a := by
  cases a <;> rfl

theorem mergeOffer_self (r : OfferRow) : mergeOffer r r = r := by
  cases r
  simp [mergeOffer, oE_self]

theorem mergeOffer_idem (s r : OfferRow) :
    mergeOffer (mergeOffer s r) r = mergeOffer s r := by
  cases s; cases r
  simp [mergeOffer, oE_idem]

theorem offerConflict_fields (s r : OfferRow) (h : offerConflict s r = true) :
    s.source_location = r.source_location ∧ s.sale_number = r.sale_number ∧
      s.lot_number = r.lot_number ∧ s.broker = r.broker ∧
      r.sale_number.isSome = true ∧ r.lot_number.isSome = true ∧
      r.broker.isSome = true := by
  simp only [offerConflict, Bool.and_eq_true, beq_iff_eq] at h
  tauto

theorem mergeOffer_key (s r : OfferRow) (h : offerConflict s r = true) :
    (mergeOffer s r).source_location = s.source_location ∧
      (mergeOffer s r).sale_number = s.sale_number ∧
      (mergeOffer s r).lot_number = s.lot_number ∧
      (mergeOffer s r).broker = s.broker := by
  obtain ⟨h1, h2, h3, h4, _, _, h7⟩ := offerConflict_fields s r h
  refine ⟨rfl, rfl, rfl, ?_⟩
  show oE r.broker s.broker = s.broker
  rw [← h4]
  exact oE_self s.broker

theorem offerConflict_mergeOffer (s r : OfferRow) (h : offerConflict s r = true) :
    offerConflict (mergeOffer s r) r = true := by
  obtain ⟨k1, k2, k3, k4⟩ := mergeOffer_key s r h
  simp only [offerConflict, Bool.and_eq_true, beq_iff_eq] at h ⊢
  rw [k1, k2, k3, k4]
  exact h

theorem offerConflict_stable (s q x : OfferRow) (h : offerConflict s q = true) :
    offerConflict (mergeOffer s q) x = offerConflict s x := by
  obtain ⟨k1, k2, k3, k4⟩ := mergeOffer_key s q h
  simp only [offerConflict]
  rw [k1, k2, k3, k4]

theorem offerConflict_trans (s x q : OfferRow) (h : offerConflict s x = true) :
    offerConflict s q = offerConflict x q := by
  obtain ⟨h1, h2, h3, h4, _, _, _⟩ := offerConflict_fields s x h
  simp only [offerConflict]
  rw [h1, h2, h3, h4]

theorem mergeSale_self (r : SaleRow) : mergeSale r r = r := by
  cases r
  simp [mergeSale]

theorem mergeSale_idem (s r : SaleRow) :
    mergeSale (mergeSale s r) r = mergeSale s r := by
  cases s; cases r
  simp [mergeSale]

theorem saleConflict_fields (s r : SaleRow) (h : saleConflict s r = true) :
    s.source_location = r.source_location ∧ s.sale_number = r.sale_number ∧
      s.lot_number = r.lot_number ∧ s.broker = r.broker ∧
      r.sale_number.isSome = true ∧ r.lot_number.isSome = true ∧
      r.broker.isSome = true := by
  simp only [saleConflict, Bool.and_eq_true, beq_iff_eq] at h
  tauto

theorem mergeSale_key (s r : SaleRow) (h : saleConflict s r = true) :
    (mergeSale s r).source_location = s.source_location ∧
      (mergeSale s r).sale_number = s.sale_number ∧
      (mergeSale s r).lot_number = s.lot_number ∧
      (mergeSale s r).broker = s.broker := by
  obtain ⟨h1, h2, h3, h4, _, _, _⟩ := saleConflict_fields s r h
  exact ⟨h1.symm, h2.symm, h3.symm, h4.symm⟩

theorem saleConflict_mergeSale (s r : SaleRow) (h : saleConflict s r = true) :
    saleConflict (mergeSale s r) r = true := by
  obtain ⟨k1, k2, k3, k4⟩ := mergeSale_key s r h
  simp only [saleConflict, Bool.and_eq_true, beq_iff_eq] at h ⊢
  rw [k1, k2, k3, k4]
  exact h

theorem saleConflict_stable (s q x : SaleRow) (h : saleConflict s q = true) :
    saleConflict (mergeSale s q) x = saleConflict s x := by
  obtain ⟨k1, k2, k3, k4⟩ := mergeSale_key s q h
  simp only [saleConflict]
  rw [k1, k2, k3, k4]

theorem saleConflict_trans (s x q : SaleRow) (h : saleConflict s x = true) :
    saleConflict s q = saleConflict x q := by
  obtain ⟨h1, h2, h3, h4, _, _, _⟩ := saleConflict_fields s x h
  simp only [saleConflict]
  rw [h1, h2, h3, h4]

theorem stripProvO_fields (s s' : OfferRow) (h : stripProvO s = stripProvO s') :
    s.source_location = s'.source_location ∧ s.sale_date = s'.sale_date ∧
      s.sale_number = s'.sale_number ∧ s.broker = s'.broker ∧
      s.mark = s'.mark ∧ s.grade = s'.grade ∧
      s.lot_number = s'.lot_number ∧ s.invoice_number = s'.invoice_number ∧
      s.quantity_kgs = s'.quantity_kgs ∧ s.package_count = s'.package_count ∧
      s.valuation_or_rp = s'.valuation_or_rp := by
  cases s; cases s'
  simp only [stripProvO, OfferRow.mk.injEq] at h
  simp only
  tauto

theorem offerConflict_stripProv (s s' r r' : OfferRow)
    (hs : stripProvO s = stripProvO s') (hr : stripProvO r = stripProvO r') :
    offerConflict s r = offerConflict s' r' := by
  obtain ⟨a1, _, a3, a4, _, _, a7, _⟩ := stripProvO_fields s s' hs
  obtain ⟨b1, _, b3, b4, _, _, b7, _⟩ := stripProvO_fields r r' hr
  simp only [offerConflict]
  rw [a1, a3, a4, a7, b1, b3, b4, b7]

theorem mergeOffer_stripProv (s s' r r' : OfferRow)
    (hs : stripProvO s = stripProvO s') (hr : stripProvO r = stripProvO r') :
    stripProvO (mergeOffer s r) = stripProvO (mergeOffer s' r') := by
  obtain ⟨a1, a2, a3, a4, a5, a6, a7, a8, a9, a10, a11⟩ := stripProvO_fields s s' hs
  obtain ⟨b1, b2, b3, b4, b5, b6, b7, b8, b9, b10, b11⟩ := stripProvO_fields r r' hr
  cases s; cases s'; cases r; cases r'
  simp only at a1 a2 a3 a4 a5 a6 a7 a8 a9 a10 a11 b1 b2 b3 b4 b5 b6 b7 b8 b9 b10 b11
  simp only [mergeOffer, stripProvO, OfferRow.mk.injEq]
  subst a1 a2 a3 a4 a5 a6 a7 a8 a9 a10 a11 b1 b2 b3 b4 b5 b6 b7 b8 b9 b10 b11
  simp

theorem stripProvS_fields (s s' : SaleRow) (h : stripProvS s = stripProvS s') :
    s.source_location = s'.source_location ∧ s.sale_date = s'.sale_date ∧
      s.sale_number = s'.sale_number ∧ s.broker = s'.broker ∧
      s.mark = s'.mark ∧ s.grade = s'.grade ∧
      s.lot_number = s'.lot_number ∧ s.invoice_number = s'.invoice_number ∧
      s.quantity_kgs = s'.quantity_kgs ∧ s.package_count = s'.package_count ∧
      s.price = s'.price ∧ s.buyer = s'.buyer := by
  cases s; cases s'
  simp only [stripProvS, SaleRow.mk.injEq] at h
  simp only
  tauto

theorem saleConflict_stripProv (s s' r r' : SaleRow)
    (hs : stripProvS s = stripProvS s') (hr : stripProvS r = stripProvS r') :
    saleConflict s r = saleConflict s' r' := by
  obtain ⟨a1, _, a3, a4, _, _, a7, _⟩ := stripProvS_fields s s' hs
  obtain ⟨b1, _, b3, b4, _, _, b7, _⟩ := stripProvS_fields r r' hr
  simp only [saleConflict]
  rw [a1, a3, a4, a7, b1, b3, b4, b7]

theorem mergeSale_stripProv (s s' r r' : SaleRow)
    (hs : stripProvS s = stripProvS s') (hr : stripProvS r = stripProvS r') :
    stripProvS (mergeSale s r) = stripProvS (mergeSale s' r') := by
  obtain ⟨b1, b2, b3, b4, b5, b6, b7, b8, b9, b10, b11, b12⟩ := stripProvS_fields r r' hr
  cases s; cases s'; cases r; cases r'
  simp only at b1 b2 b3 b4 b5 b6 b7 b8 b9 b10 b11 b12
  simp only [mergeSale, stripProvS, SaleRow.mk.injEq]
  subst b1 b2 b3 b4 b5 b6 b7 b8 b9 b10 b11 b12
  simp

theorem setKV_vals_subset {β : Type} [DecidableEq β] (m : List (String × β))
    (k : String) (v x : β) (hx : x ∈ (setKV m k v).map Prod.snd) :
    x ∈ m.map Prod.snd ∨ x = v := by
  induction m with
  | nil =>
    simp [setKV] at hx
    exact Or.inr hx
  | cons p rest ih =>
    rw [setKV] at hx
    by_cases hk : p.1 = k
    · rw [if_pos hk] at hx
      simp only [List.map_cons, List.mem_cons] at hx
      rcases hx with h | h
      · exact Or.inr h
      · exact Or.inl (List.mem_cons.mpr (Or.inr h))
    · rw [if_neg hk] at hx
      simp only [List.map_cons, List.mem_cons] at hx
      rcases hx with h | h
      · exact Or.inl (List.mem_cons.mpr (Or.inl h))
      · rcases ih h with h2 | h2
        · exact Or.inl (List.mem_cons.mpr (Or.inr h2))
        · exact Or.inr h2

theorem setKV_vals_nodup (m : List (String × String)) (k v : String)
    (hnd : (m.map Prod.snd).Nodup) (hv : v ∉ m.map Prod.snd) :
    ((setKV m k v).map Prod.snd).Nodup := by
  induction m with
  | nil => simp [setKV]
  | cons p rest ih =>
    rw [setKV]
    simp only [List.map_cons, List.nodup_cons] at hnd
    obtain ⟨hp, hrest⟩ := hnd
    simp only [List.map_cons, List.mem_cons, not_or] at hv
    obtain ⟨hvp, hvrest⟩ := hv
    by_cases hk : p.1 = k
    · rw [if_pos hk]
      simp only [List.map_cons, List.nodup_cons]
      exact ⟨hvrest, hrest⟩
    · rw [if_neg hk]
      simp only [List.map_cons, List.nodup_cons]
      refine ⟨?_, ih hrest hvrest⟩
      intro hmem
      rcases setKV_vals_subset rest k v p.2 hmem with h | h
      · exact hp h
      · exact hvp h.symm

theorem delFirstVal_sublist (m : List (String × String)) (v : String) :
    List.Sublist (delFirstVal m v) m := by
  induction m with
  | nil => simp [delFirstVal]
  | cons p rest ih =>
    rw [delFirstVal]
    by_cases hv : p.2 = v
    · rw [if_pos hv]
      exact (List.sublist_cons_self p rest)
    · rw [if_neg hv]
      exact List.Sublist.cons₂ p ih

theorem delFirstVal_not_mem (m : List (String × String)) (v : String)
    (hnd : (m.map Prod.snd).Nodup) : v ∉ (delFirstVal m v).map Prod.snd := by
  induction m with
  | nil => simp [delFirstVal]
  | cons p rest ih =>
    rw [delFirstVal]
    simp only [List.map_cons, List.nodup_cons] at hnd
    obtain ⟨hp, hrest⟩ := hnd
    by_cases hv : p.2 = v
    · rw [if_pos hv]
      rw [hv] at hp
      exact hp
    · rw [if_neg hv]
      simp only [List.map_cons, List.mem_cons, not_or]
      exact ⟨fun h => hv h.symm, ih hrest⟩

theorem mcStep_mappingOK (ndc : List (String × String)) (st : MCState)
    (t : String × Nat × String) (h : mappingOK st.mapping) :
    mappingOK (mcStep ndc st t).mapping := by
  obtain ⟨hnd, hmark⟩ := h
  rw [mcStep]
  cases getKV ndc (lowNorm t.2.2) with
  | none => exact ⟨hnd, hmark⟩
  | some orig =>
    simp only
    by_cases hm : t.1 = "mark"
    · rw [if_pos hm]
      exact ⟨hnd, hmark⟩
    · rw [if_neg hm]
      by_cases hpc : t.1 ∈ prioritizedCols
      · rw [if_pos hpc]
        by_cases hpr : (getKV st.priorities t.1).all (fun p => t.2.1 < p) = true
        · rw [if_pos hpr]
          simp only
          by_cases hin : t.1 ∈ st.mapping.map Prod.snd
          · rw [if_pos hin]
            have hsub := delFirstVal_sublist st.mapping t.1
            have hndDel : ((delFirstVal st.mapping t.1).map Prod.snd).Nodup :=
              (hsub.map Prod.snd).nodup hnd
            have hnotin := delFirstVal_not_mem st.mapping t.1 hnd
            constructor
            · exact setKV_vals_nodup _ orig t.1 hndDel hnotin
            · intro hc
              rcases setKV_vals_subset _ orig t.1 "mark" hc with h2 | h2
              · exact hmark ((hsub.map Prod.snd).mem h2)
              · exact hm h2.symm
          · rw [if_neg hin]
            constructor
            · exact setKV_vals_nodup _ orig t.1 hnd hin
            · intro hc
              rcases setKV_vals_subset _ orig t.1 "mark" hc with h2 | h2
              · exact hmark h2
              · exact hm h2.symm
        · rw [if_neg hpr]
          exact ⟨hnd, hmark⟩
      · rw [if_neg hpc]
        by_cases hin : t.1 ∈ st.mapping.map Prod.snd
        · rw [if_pos hin]
          exact ⟨hnd, hmark⟩
        · rw [if_neg hin]
          constructor
          · exact setKV_vals_nodup _ orig t.1 hnd hin
          · intro hc
            rcases setKV_vals_subset _ orig t.1 "mark" hc with h2 | h2
            · exact hmark h2
            · exact hm h2.symm

theorem foldl_mcStep_mappingOK (ndc : List (String × String))
    (ts : List (String × Nat × String)) (st : MCState)
    (h : mappingOK st.mapping) :
    mappingOK ((ts.foldl (mcStep ndc) st).mapping) := by
  induction ts generalizing st with
  | nil => exact h
  | cons t rest ih => exact ih _ (mcStep_mappingOK ndc st t h)

theorem map_columns_mappingOK (dfColumns : List String)
    (mappingDict : List (String × List String)) :
    mappingOK (map_columns dfColumns mappingDict).1 := by
  exact foldl_mcStep_mappingOK _ _ _ ⟨List.nodup_nil, List.not_mem_nil "mark"⟩

theorem nodupVals_unique (m : List (String × String)) (h1 h2 f : String)
    (hnd : (m.map Prod.snd).Nodup)
    (m1 : (h1, f) ∈ m) (m2 : (h2, f) ∈ m) : h1 = h2 := by
  induction m with
  | nil => cases m1
  | cons p rest ih =>
    simp only [List.map_cons, List.nodup_cons] at hnd
    obtain ⟨hp, hrest⟩ := hnd
    rcases List.mem_cons.mp m1 with e1 | e1 <;>
      rcases List.mem_cons.mp m2 with e2 | e2
    · have := e1.trans e2.symm
      exact (Prod.mk.injEq h1 f h2 f).mp this |>.1
    · exfalso
      apply hp
      have hf : p.2 = f := by rw [← e1]
      rw [hf]
      exact List.mem_map_of_mem Prod.snd e2
    · exfalso
      apply hp
      have hf : p.2 = f := by rw [← e2]
      rw [hf]
      exact List.mem_map_of_mem Prod.snd e1
    · exact ih hrest e1 e2

/-! ## Claim theorems, witnesses and counterexamples -/

/-- Claim C1: for every stored Offer row and incoming Offer row with the
same natural key (source_location, sale_number, lot_number, broker), the
merge updates each enrichable field (valuation_or_rp, mark, quantity_kgs,
package_count, invoice_number, grade, sale_date) only when the incoming
value is non-null — a null incoming value keeps the stored value, a
non-null incoming value replaces it — while source_file_identifier and
processed_timestamp are always overwritten with the incoming values; and
on a one-row table the UPSERT applies exactly this merge. -/
theorem C1_offer_merge_enrichment (s i : OfferRow)
    (h : offerConflict s i = true) :
    offerEnrichSpec s i ∧
      upsertBy offerConflict mergeOffer [s] i = [mergeOffer s i] := by
  constructor
  · refine ⟨?_, ?_, ?_, ?_, ?_, ?_, ?_, ?_, ?_, ?_, ?_, ?_, ?_, ?_, rfl, rfl⟩ <;>
      first
        | (intro hv; simp [mergeOffer, hv, oE])
        | (intro v hv; simp [mergeOffer, hv, oE])
  · simp [upsertBy, h]

/-- Witness for C1 at concrete rows: the incoming re-delivery has a null
valuation and a non-null mark, so the merge keeps the stored valuation,
fills the mark, and refreshes the provenance. -/
theorem C1_offer_merge_enrichment_witness :
    offerConflict owStored owIncoming = true ∧
      (offerEnrichSpec owStored owIncoming ∧
        upsertBy offerConflict mergeOffer [owStored] owIncoming =
          [mergeOffer owStored owIncoming]) :=
  ⟨by decide, C1_offer_merge_enrichment owStored owIncoming (by decide)⟩

/-- Claim C3 (as amended only in framing — proved as stated): for every
stored Sale row and incoming Sale row with the same natural key, the merge
fully overwrites every field of the stored row with the incoming record's
values — in particular the buyer — with no per-field coalescing. -/
theorem C3_sale_merge_overwrites (s i : SaleRow)
    (h : saleConflict s i = true) :
    mergeSale s i = i ∧ (mergeSale s i).buyer = i.buyer ∧
      upsertBy saleConflict mergeSale [s] i = [i] := by
  have hms : mergeSale s i = i := by cases s; cases i; rfl
  refine ⟨hms, by rw [hms], ?_⟩
  simp [upsertBy, h, hms]

/-- Witness for C3: re-ingesting the key with buyer `CHAI TRADERS`
replaces the stored `GLOBAL TEA` entirely. -/
theorem C3_sale_merge_overwrites_witness :
    saleConflict slStored slIncoming = true ∧
      (mergeSale slStored slIncoming = slIncoming ∧
        (mergeSale slStored slIncoming).buyer = slIncoming.buyer ∧
        upsertBy saleConflict mergeSale [slStored] slIncoming = [slIncoming]) :=
  ⟨by decide, C3_sale_merge_overwrites slStored slIncoming (by decide)⟩

/-- Claim C6: the resolved mark is the first non-null cleaned value among
the candidate columns in alias-priority order, where cleaning trims,
uppercases and maps the noise tokens {NAN, NONE, "", "-", NIL} to null;
`Selling Mark` null with `Garden = KIAMBU` resolves to `KIAMBU`, and
`Selling Mark = RUIRU` wins over `Garden = KIAMBU`; `map_columns` tags
the two candidates with priority ranks 0 and 1. -/
theorem C6_mark_coalesce :
    (∀ cols, coalesceMark cols = firstCleanMark cols) ∧
      coalesceMark [none, some "KIAMBU"] = some "KIAMBU" ∧
      coalesceMark [some "RUIRU", some "KIAMBU"] = some "RUIRU" ∧
      cleanCell (some " kiambu ") = some "KIAMBU" ∧
      cleanCell (some "nan") = none ∧ cleanCell (some "NONE") = none ∧
      cleanCell (some "") = none ∧ cleanCell (some "-") = none ∧
      cleanCell (some "NIL") = none ∧ cleanCell none = none ∧
      (map_columns ["Selling Mark", "Garden"] COLUMN_MAP_LOT_DETAILS).2 =
        [("Selling Mark", 0), ("Garden", 1)] :=
  ⟨coalesceMark_eq_firstCleanMark, by decide, by decide, by decide, by decide,
    by decide, by decide, by decide, by decide, by decide, by decide⟩

/-- Witness for C6: the coalesce/first-non-null equivalence evaluated at
a concrete candidate list whose first cleaned value is null. -/
theorem C6_mark_coalesce_witness :
    coalesceMark [some "nan", some " ruiru "] =
      firstCleanMark [some "nan", some " ruiru "] :=
  C6_mark_coalesce.1 [some "nan", some " ruiru "]

/-- Claim C10: for every header set and alias table, the standard mapping
returned by `map_columns` assigns at most one raw header to each canonical
field (so the rename never produces duplicate canonical columns), and the
coalesced field `mark` never appears as a value of the standard
mapping — its headers are reported only in the rank-tagged dictionary. -/
theorem C10_map_columns_invariants (dfColumns : List String)
    (dict : List (String × List String)) :
    (∀ h1 h2 f, (h1, f) ∈ (map_columns dfColumns dict).1 →
        (h2, f) ∈ (map_columns dfColumns dict).1 → h1 = h2) ∧
      "mark" ∉ ((map_columns dfColumns dict).1.map Prod.snd) := by
  have hOK := map_columns_mappingOK dfColumns dict
  exact ⟨fun h1 h2 f m1 m2 => nodupVals_unique _ h1 h2 f hOK.1 m1 m2, hOK.2⟩

/-- Witness for C10 at a concrete header set containing two mark aliases
and a lot-number alias. -/
theorem C10_map_columns_invariants_witness :
    "mark" ∉
      ((map_columns ["Selling Mark", "Garden", "LotNo"]
        COLUMN_MAP_LOT_DETAILS).1.map Prod.snd) :=
  (C10_map_columns_invariants ["Selling Mark", "Garden", "LotNo"]
    COLUMN_MAP_LOT_DETAILS).2

/-- Counterexample to claim C5 as stated: an Offer row whose only missing
field is `mark` — identity fields, grade and valuation all present — is
dropped by the normalizer, while the claim says only rows missing
sale_number/sale_date/lot_number/broker (or price/buyer for sales) are
dropped and all others are retained. -/
theorem C5_missing_mark_dropped_counterexample :
    filterRows false [lotNoMark] = [] ∧ lotNoMark.mark = none ∧
      lotNoMark.sale_number = some "2025-35" ∧
      lotNoMark.sale_date = some "2025-09-01" ∧
      lotNoMark.lot_number = some "1001" ∧ lotNoMark.broker = some "ATB" ∧
      lotNoMark.grade = some "BP1" ∧ lotNoMark.valuation_or_rp = some 300 := by
  refine ⟨by decide, rfl, rfl, rfl, rfl, rfl, rfl, rfl⟩

/-- Claim C5 as amended: a row survives normalization exactly when its
sale_number and sale_date are neither null nor the "Unknown" sentinel AND
its lot_number, broker, mark and grade are all non-null AND — for Sale
records — its price and buyer are non-null; rows missing any other field
(in particular an Offer row missing valuation_or_rp) are retained. -/
theorem C5_row_filter_characterization (isSale : Bool) (rows : List LotRow)
    (r : LotRow) :
    r ∈ filterRows isSale rows ↔
      (r ∈ rows ∧
        r.sale_number ≠ none ∧ r.sale_number ≠ some "Unknown" ∧
        r.sale_date ≠ none ∧ r.sale_date ≠ some "Unknown" ∧
        r.lot_number ≠ none ∧ r.broker ≠ none ∧
        r.mark ≠ none ∧ r.grade ≠ none ∧
        (isSale = true → r.price ≠ none ∧ r.buyer ≠ none)) := by
  cases isSale <;>
    simp [filterRows, List.mem_filter, metaOk, requiredOk,
      Bool.and_eq_true, bne_iff_ne, Option.isSome_iff_ne_none] <;>
    tauto

/-- Witness for C5: an Offer row with a null valuation but complete
identity fields, mark and grade is retained. -/
theorem C5_row_filter_characterization_witness :
    lotKeep ∈ filterRows false [lotKeep] :=
  (C5_row_filter_characterization false [lotKeep] lotKeep).mpr (by decide)

/-- Claim C7: `find_header_row` returns the zero-based index of the first
row within the 20-row scan window whose normalized non-null cell values
share at least `min(3, number of keywords)` elements with the normalized
keyword set, scanning top-down, and `None` exactly when no scanned row
qualifies. -/
theorem C7_find_header_row_characterization
    (rows : List (List (Option String))) (kws : List String) :
    (∀ i, find_header_row rows kws = some i ↔
        (i < (rows.take 20).length ∧
          rowQualifies ((kws.map lowNorm).dedup) kws.length
            ((rows.take 20).getD i []) = true ∧
          ∀ j < i, rowQualifies ((kws.map lowNorm).dedup) kws.length
            ((rows.take 20).getD j []) = false)) ∧
      (find_header_row rows kws = none ↔
        ∀ j < (rows.take 20).length,
          rowQualifies ((kws.map lowNorm).dedup) kws.length
            ((rows.take 20).getD j []) = false) :=
  ⟨fun i => hdrScan_some_iff ((kws.map lowNorm).dedup) kws.length (rows.take 20) i,
    hdrScan_none_iff ((kws.map lowNorm).dedup) kws.length (rows.take 20)⟩

/-- Witness for C7: a sheet with three junk rows followed by a row
containing four of the header keywords is located at index 3. -/
theorem C7_find_header_row_characterization_witness :
    find_header_row demoSheet HEADER_KEYWORDS = some 3 :=
  ((C7_find_header_row_characterization demoSheet HEADER_KEYWORDS).1 3).mpr
    (by decide)

/-- Counterexample to claim C9 as stated: when a batch write fails on a
constraint violation, `execute_insert` does return zero and the store is
unchanged, but the per-file handler then records status `'SUCCESS'` (with
zero records) in the ledger — not a failure outcome as the claim says. -/
theorem C9_ledger_success_counterexample :
    salesBatch [slStored] [slBad] = Except.error "NOT NULL constraint failed" ∧
      loadOutcomeSales [slStored] [slBad] = (([slStored], 0), "SUCCESS") ∧
      "SUCCESS" ≠ "FAILED_PROCESSING" := by
  refine ⟨rfl, by decide, by decide⟩

/-- Claim C9 as amended: a storage error inside a merge batch makes
`execute_insert` report zero affected rows with the store left at its
pre-batch state (the open transaction is rolled back), and the error is
not raised past the handler — which, however, records the outcome as
`'SUCCESS'` with zero records rather than a failure status. -/
theorem C9_insert_error_rollback (t b : List SaleRow) (e : String)
    (h : salesBatch t b = Except.error e) :
    execute_insert_sales t b = (t, 0) ∧
      loadOutcomeSales t b = ((t, 0), "SUCCESS") := by
  have h1 : execute_insert_sales t b = (t, 0) := by
    unfold execute_insert_sales
    rw [h]
  exact ⟨h1, by unfold loadOutcomeSales; rw [h1]⟩

/-- Witness for C9 at a concrete erroring batch. -/
theorem C9_insert_error_rollback_witness :
    execute_insert_sales [slStored] [slBad] = ([slStored], 0) ∧
      loadOutcomeSales [slStored] [slBad] = (([slStored], 0), "SUCCESS") :=
  C9_insert_error_rollback [slStored] [slBad] "NOT NULL constraint failed" rfl

/-- Counterexample to claim C4 as stated: `extract_sale_number_from_string`
can return values that are neither `"Unknown"` nor `"YYYY-NN"`-shaped —
`"Sale 7"` with no usable date hint yields `"UnknownYear-07"`, and
`"2025/5"` yields the one-digit-week `"2025-5"`; neither equals the
`"Unknown"` sentinel, so such rows are not dropped by the normalizer. -/
theorem C4_sale_number_shape_counterexample :
    extract_sale_number_from_string (some "Sale 7") none = "UnknownYear-07" ∧
      isCanonicalSaleNumber "UnknownYear-07" = false ∧
      "UnknownYear-07" ≠ "Unknown" ∧
      extract_sale_number_from_string (some "2025/5") none = "2025-5" ∧
      isCanonicalSaleNumber "2025-5" = false ∧
      metaOk { lotNoMark with sale_number := some "UnknownYear-07" } = true := by
  refine ⟨by decide, by decide, by decide, by decide, by decide, by decide⟩

/-- Claim C4 as amended: every value `extract_sale_number_from_string`
returns is `"Unknown"`, or the slash-to-dash rewrite of an input starting
with four digits, a slash and a digit (so one-digit weeks and trailing
text survive), or `"<pre>-NN"` where `<pre>` is the date hint's leading
dash component or the literal `"UnknownYear"` — the `"YYYY-NN"` shape is
not guaranteed. -/
theorem C4_sale_number_shape_amended (sn hint : Option String) :
    extract_sale_number_from_string sn hint = "Unknown" ∨
      (∃ s, sn = some s ∧ startsYearSlashWeek s.toList = true ∧
        extract_sale_number_from_string sn hint = slashToDash s) ∨
      (∃ n, extract_sale_number_from_string sn hint =
        salePre hint ++ "-" ++ pad2 n) := by
  cases sn with
  | none => exact Or.inl rfl
  | some s =>
    simp only [extract_sale_number_from_string]
    by_cases h0 : s = ""
    · rw [if_pos h0]
      exact Or.inl rfl
    · rw [if_neg h0]
      by_cases h1 : (s.toList.contains '/' && startsYearSlashWeek s.toList) = true
      · rw [if_pos h1]
        exact Or.inr (Or.inl ⟨s, rfl, (Bool.and_eq_true _ _ |>.mp h1).2, rfl⟩)
      · rw [if_neg h1]
        by_cases h2 : hasSub "Sale".toList s.toList = true
        · rw [if_pos h2]
          cases hf : findSaleNum s.toList with
          | some n => exact Or.inr (Or.inr ⟨n, rfl⟩)
          | none => exact Or.inl rfl
        · rw [if_neg h2]
          exact Or.inl rfl

/-- Witness for C4 at a concrete slash-shaped input. -/
theorem C4_sale_number_shape_amended_witness :
    extract_sale_number_from_string (some "2025/35") none = "Unknown" ∨
      (∃ s, (some "2025/35" : Option String) = some s ∧
        startsYearSlashWeek s.toList = true ∧
        extract_sale_number_from_string (some "2025/35") none = slashToDash s) ∨
      (∃ n, extract_sale_number_from_string (some "2025/35") none =
        salePre none ++ "-" ++ pad2 n) :=
  C4_sale_number_shape_amended (some "2025/35") none

theorem pyOr_unknown_ne_empty (o : Option String) : pyOr o "Unknown" ≠ "" := by
  cases o with
  | none => simp [pyOr]
  | some s =>
    simp only [pyOr]
    by_cases h : s = ""
    · rw [if_pos h]
      decide
    · rw [if_neg h]
      exact h

/-- Claim C8: `extract_metadata` always returns a (sale_number, sale_date)
pair whose components are the explicit `"Unknown"` sentinel when
undeterminable and never null/absent; the AuctionSummary filename pattern
yields the bracketed sale number and the date parsed from the six-digit
token with the four-digit year hint winning over the two-digit year, and
a file matching no pattern derives both fields from recognized internal
columns instead. -/
theorem C8_metadata_extraction :
    extract_metadata "AuctionSummary_[2025-35]_010925.xlsx" none =
        ("2025-35", "2025-09-01") ∧
      extract_metadata "AuctionSummary_[2026-35]_010925.xlsx" none =
        ("2026-35", "2026-09-01") ∧
      extract_metadata "randomfile.xlsx" (some demoFrame) =
        ("2025-35", "2025-09-01") ∧
      extract_metadata "randomfile.xlsx" none = ("Unknown", "Unknown") ∧
      (∀ f df, (extract_metadata f df).1 ≠ "" ∧ (extract_metadata f df).2 ≠ "") :=
  ⟨by decide, by decide, by decide, by decide,
    fun f df => ⟨pyOr_unknown_ne_empty ((extractMetaCore f df).1),
      pyOr_unknown_ne_empty ((extractMetaCore f df).2)⟩⟩

/-- Witness for C8: the never-null clause evaluated at a concrete file. -/
theorem C8_metadata_extraction_witness :
    (extract_metadata "Sale 35_Catalogue_01_09_2025.xlsx" none).1 ≠ "" ∧
      (extract_metadata "Sale 35_Catalogue_01_09_2025.xlsx" none).2 ≠ "" :=
  C8_metadata_extraction.2.2.2.2 "Sale 35_Catalogue_01_09_2025.xlsx" none

theorem forall₂_stripSymm {α : Type} (σ : α → α) (l1 l2 : List α)
    (h : List.Forall₂ (fun x y => σ x = σ y) l1 l2) :
    List.Forall₂ (fun x y => σ x = σ y) l2 l1 := by
  induction h with
  | nil => exact List.Forall₂.nil
  | cons hxy _ ih => exact List.Forall₂.cons hxy.symm ih

/-- Counterexample to claim C2 as stated: a second run over an unchanged
input file set stamps the parsed rows with a fresh `processed_timestamp`
(and the merge always overwrites the provenance columns), so the stored
`processed_timestamp` field changes between the runs and the resulting
store state is not identical. -/
theorem C2_second_run_changes_store :
    stripProvO owRun1 = stripProvO owRun2 ∧
      ingestOffers (ingestOffers [] [owRun1]) [owRun2] ≠
        ingestOffers [] [owRun1] ∧
      (ingestOffers (ingestOffers [] [owRun1]) [owRun2]).map
          (fun r => r.processed_timestamp) = ["2025-09-05T08:30:00"] ∧
      (ingestOffers [] [owRun1]).map (fun r => r.processed_timestamp) =
        ["2025-09-02T10:00:00"] := by
  refine ⟨rfl, by decide, by decide, by decide⟩

/-- Claim C2 as amended: when the second run parses the same rows up to
fresh provenance values (same natural keys, each listed once per batch
with a complete key), re-ingesting changes no stored field outside the
provenance columns and adds no rows — the store restricted to its
non-provenance fields and its total row count are unchanged for both the
offers and the sales table; only `source_file_identifier` and
`processed_timestamp` drift to the second run's values. -/
theorem C2_reingestion_preserves_nonprovenance
    (tO : List OfferRow) (b1 b2 : List OfferRow)
    (tS : List SaleRow) (c1 c2 : List SaleRow)
    (hbO : List.Forall₂ (fun x y => stripProvO x = stripProvO y) b1 b2)
    (hkO : ∀ r ∈ b1, offerConflict r r = true)
    (hpO : b1.Pairwise (fun a c => offerConflict a c = false))
    (hbS : List.Forall₂ (fun x y => stripProvS x = stripProvS y) c1 c2)
    (hkS : ∀ r ∈ c1, saleConflict r r = true)
    (hpS : c1.Pairwise (fun a c => saleConflict a c = false)) :
    ((ingestOffers (ingestOffers tO b1) b2).map stripProvO =
        (ingestOffers tO b1).map stripProvO ∧
      (ingestOffers (ingestOffers tO b1) b2).length =
        (ingestOffers tO b1).length) ∧
      ((ingestSales (ingestSales tS c1) c2).map stripProvS =
          (ingestSales tS c1).map stripProvS ∧
        (ingestSales (ingestSales tS c1) c2).length =
          (ingestSales tS c1).length) := by
  have hIdemO := ingestBy_idem offerConflict mergeOffer
    (fun r _ => mergeOffer_self r) (fun s r _ => mergeOffer_idem s r)
    offerConflict_mergeOffer offerConflict_stable offerConflict_trans
    b1 tO hkO hpO
  have hCongrO := ingestBy_congr offerConflict mergeOffer stripProvO
    offerConflict_stripProv mergeOffer_stripProv b2 b1
    (forall₂_stripSymm stripProvO b1 b2 hbO)
    (ingestBy offerConflict mergeOffer tO b1)
    (ingestBy offerConflict mergeOffer tO b1) rfl
  rw [hIdemO] at hCongrO
  have hIdemS := ingestBy_idem saleConflict mergeSale
    (fun r _ => mergeSale_self r) (fun s r _ => mergeSale_idem s r)
    saleConflict_mergeSale saleConflict_stable saleConflict_trans
    c1 tS hkS hpS
  have hCongrS := ingestBy_congr saleConflict mergeSale stripProvS
    saleConflict_stripProv mergeSale_stripProv c2 c1
    (forall₂_stripSymm stripProvS c1 c2 hbS)
    (ingestBy saleConflict mergeSale tS c1)
    (ingestBy saleConflict mergeSale tS c1) rfl
  rw [hIdemS] at hCongrS
  refine ⟨⟨hCongrO, ?_⟩, hCongrS, ?_⟩
  · have := congrArg List.length hCongrO
    simpa [List.length_map] using this
  · have := congrArg List.length hCongrS
    simpa [List.length_map] using this

/-- Witness for C2 at concrete one-row batches whose second-run copies
differ only in `processed_timestamp`. -/
theorem C2_reingestion_preserves_nonprovenance_witness :
    ((ingestOffers (ingestOffers [] [owRun1]) [owRun2]).map stripProvO =
        (ingestOffers [] [owRun1]).map stripProvO ∧
      (ingestOffers (ingestOffers [] [owRun1]) [owRun2]).length =
        (ingestOffers [] [owRun1]).length) ∧
      ((ingestSales (ingestSales [] [slStored]) [slRun2]).map stripProvS =
          (ingestSales [] [slStored]).map stripProvS ∧
        (ingestSales (ingestSales [] [slStored]) [slRun2]).length =
          (ingestSales [] [slStored]).length) :=
  C2_reingestion_preserves_nonprovenance [] [owRun1] [owRun2] [] [slStored]
    [slRun2]
    (List.Forall₂.cons rfl List.Forall₂.nil) (by decide) (by simp)
    (List.Forall₂.cons rfl List.Forall₂.nil) (by decide) (by simp)

end TeaTrade
